import Mathlib

/-!
Verification of the elastic double-pendulum pipeline
(`src/pyelastic/double_pendulum.py`, class `ElasticPendulum`, and the older
`src/double_pendulum.py`, class `DoubleSpring`).

The physics model and the Cartesian transform are embedded over the exact
reals (the floats of the source are modelled as real numbers); the
rendering/cache/interpolation pipeline, whose data is finite lists of
samples, is embedded over `ℚ` so that every definition is executable.
-/

namespace ElasticPendulum

/-- Simulation parameters set in `ElasticPendulum.__init__`:
gravity `g`, natural lengths `l1, l2`, masses `m1, m2`, spring constants
`k1, k2`. -/
structure Params where
  g : ℝ
  l1 : ℝ
  l2 : ℝ
  m1 : ℝ
  m2 : ℝ
  k1 : ℝ
  k2 : ℝ

/-- The 8-component state vector `Y`, in the order the solver sees it:
`[alpha_0, alpha_1, beta_0, beta_1, a0, a1, b0, b1]`, i.e.
`(alpha, alpha_dot, beta, beta_dot, a, a_dot, b, b_dot)`. -/
structure StateY where
  alpha : ℝ
  alphaDot : ℝ
  beta : ℝ
  betaDot : ℝ
  a : ℝ
  aDot : ℝ
  b : ℝ
  bDot : ℝ

/-- `ElasticPendulum._alpha_pp` (identical in `DoubleSpring._alpha_pp`). -/
noncomputable def alpha_pp (p : Params) (t : ℝ) (Y : StateY) : ℝ :=
  (-(p.g * p.m1 * Real.sin Y.alpha
      - p.k2 * p.l2 * Real.sin (Y.alpha - Y.beta)
      + p.k2 * Y.b * Real.sin (Y.alpha - Y.beta)
      + 2 * p.m1 * Y.aDot * Y.alphaDot)) / (p.m1 * Y.a)

/-- `ElasticPendulum._beta_pp`. -/
noncomputable def beta_pp (p : Params) (t : ℝ) (Y : StateY) : ℝ :=
  ((-p.k1) * p.l1 * Real.sin (Y.alpha - Y.beta)
      + p.k1 * Y.a * Real.sin (Y.alpha - Y.beta)
      - 2 * p.m1 * Y.bDot * Y.betaDot) / (p.m1 * Y.b)

/-- `ElasticPendulum._a_pp`. -/
noncomputable def a_pp (p : Params) (t : ℝ) (Y : StateY) : ℝ :=
  (p.k1 * p.l1 + p.g * p.m1 * Real.cos Y.alpha
      - p.k2 * p.l2 * Real.cos (Y.alpha - Y.beta)
      + p.k2 * Y.b * Real.cos (Y.alpha - Y.beta)
      + Y.a * (-p.k1 + p.m1 * Y.alphaDot ^ 2)) / p.m1

/-- `ElasticPendulum._b_pp`. -/
noncomputable def b_pp (p : Params) (t : ℝ) (Y : StateY) : ℝ :=
  (p.k2 * p.l2 * p.m1
      + p.k2 * p.l2 * p.m2 * Real.cos (Y.alpha - Y.beta)
      + p.k1 * p.m2 * Y.a * Real.cos (Y.alpha - Y.beta)
      - Y.b * (p.k2 * (p.m1 + p.m2) - p.m1 * p.m2 * Y.betaDot ^ 2)) / (p.m1 * p.m2)

/-- `ElasticPendulum._inte`: the derivative vector handed to `solve_ivp`,
`[Y[1], _alpha_pp, Y[3], _beta_pp, Y[5], _a_pp, Y[7], _b_pp]`. -/
noncomputable def inte (p : Params) (t : ℝ) (Y : StateY) : List ℝ :=
  [Y.alphaDot, alpha_pp p t Y, Y.betaDot, beta_pp p t Y,
    Y.aDot, a_pp p t Y, Y.bDot, b_pp p t Y]

/-- The four closed-form accelerations exactly as the spec (section 4.1)
writes them, followed by the spec's full derivative vector
`(alpha_dot, alpha_ddot, beta_dot, beta_ddot, a_dot, a_ddot, b_dot, b_ddot)`.
This definition follows the SPEC text; `inte` follows the source. -/
noncomputable def specDerivVector (p : Params) (Y : StateY) : List ℝ :=
  [Y.alphaDot,
    (-(p.g * p.m1 * Real.sin Y.alpha - p.k2 * p.l2 * Real.sin (Y.alpha - Y.beta)
        + p.k2 * Y.b * Real.sin (Y.alpha - Y.beta)
        + 2 * p.m1 * Y.aDot * Y.alphaDot)) / (p.m1 * Y.a),
    Y.betaDot,
    ((-p.k1) * p.l1 * Real.sin (Y.alpha - Y.beta)
        + p.k1 * Y.a * Real.sin (Y.alpha - Y.beta)
        - 2 * p.m1 * Y.bDot * Y.betaDot) / (p.m1 * Y.b),
    Y.aDot,
    (p.k1 * p.l1 + p.g * p.m1 * Real.cos Y.alpha
        - p.k2 * p.l2 * Real.cos (Y.alpha - Y.beta)
        + p.k2 * Y.b * Real.cos (Y.alpha - Y.beta)
        + Y.a * (-p.k1 + p.m1 * Y.alphaDot ^ 2)) / p.m1,
    Y.bDot,
    (p.k2 * p.l2 * p.m1
        + p.k2 * p.l2 * p.m2 * Real.cos (Y.alpha - Y.beta)
        + p.k1 * p.m2 * Y.a * Real.cos (Y.alpha - Y.beta)
        - Y.b * (p.k2 * (p.m1 + p.m2) - p.m1 * p.m2 * Y.betaDot ^ 2)) / (p.m1 * p.m2)]

/-- One sampled row of generalized coordinates, the columns
`array[:, 0..3] = (alpha, beta, a, b)` that `cartesian` consumes
(`integrate` passes `solution.y[[0, 2, 4, 6]].T`). -/
structure GenCoord where
  alpha : ℝ
  beta : ℝ
  a : ℝ
  b : ℝ

/-- Elementwise body of `self.x1 = array[:, 2] * np.sin(array[:, 0])`. -/
noncomputable def x1val (r : GenCoord) : ℝ := r.a * Real.sin r.alpha

/-- Elementwise body of `self.y1 = -array[:, 2] * np.cos(array[:, 0])`. -/
noncomputable def y1val (r : GenCoord) : ℝ := (-r.a) * Real.cos r.alpha

/-- Elementwise body of `self.x2 = self.x1 + array[:, 3] * np.sin(array[:, 1])`. -/
noncomputable def x2val (r : GenCoord) : ℝ := x1val r + r.b * Real.sin r.beta

/-- Elementwise body of `self.y2 = self.y1 - array[:, 3] * np.cos(array[:, 1])`. -/
noncomputable def y2val (r : GenCoord) : ℝ := y1val r - r.b * Real.cos r.beta

/-- `ElasticPendulum.cartesian` (value part): the four Cartesian series,
each an elementwise (numpy-vectorized) map over the sampled rows. -/
noncomputable def cartesian (rows : List GenCoord) :
    List ℝ × List ℝ × List ℝ × List ℝ :=
  (rows.map x1val, rows.map y1val, rows.map x2val, rows.map y2val)

/-- `np.arctan2 y x`, the angle of the point `(x, y)`, modelled as the
complex argument of `x + y*I`. -/
noncomputable def atan2 (y x : ℝ) : ℝ :=
  Complex.arg ((x : ℂ) + (y : ℂ) * Complex.I)

/-- Spec section 8 recovery formula `a = sqrt(x1^2 + y1^2)`. -/
noncomputable def recover_a (r : GenCoord) : ℝ :=
  Real.sqrt (x1val r ^ 2 + y1val r ^ 2)

/-- Spec section 8 recovery formula `alpha = atan2(x1, -y1)`. -/
noncomputable def recover_alpha (r : GenCoord) : ℝ :=
  atan2 (x1val r) (-y1val r)

/-- Spec section 8 recovery formula `b = sqrt((x2-x1)^2 + (y2-y1)^2)`. -/
noncomputable def recover_b (r : GenCoord) : ℝ :=
  Real.sqrt ((x2val r - x1val r) ^ 2 + (y2val r - y1val r) ^ 2)

/-- Spec section 8 recovery formula `beta = atan2(x2-x1, -(y2-y1))`. -/
noncomputable def recover_beta (r : GenCoord) : ℝ :=
  atan2 (x2val r - x1val r) (-(y2val r - y1val r))

/-- C1: for every 8-component state with `a ≠ 0` and `b ≠ 0`, the derivative
function `_inte` returns exactly the spec's 8-vector
`(alpha_dot, alpha_ddot, beta_dot, beta_ddot, a_dot, a_ddot, b_dot, b_ddot)`
with the four closed-form accelerations, and is independent of the time
argument (the embedding is a pure function, so it has no side effects). -/
theorem inte_matches_spec (p : Params) (t t' : ℝ) (Y : StateY)
    (ha : Y.a ≠ 0) (hb : Y.b ≠ 0) :
    inte p t Y = specDerivVector p Y ∧ inte p t Y = inte p t' Y :=
  ⟨rfl, rfl⟩

/-- Witness for C1 at `g = 9.81, l = m = 1, k = 45`, state
`(0, 0, 0, 0, 1, 0, 1, 0)`, times `0` and `1`. -/
theorem inte_matches_spec_witness :
    (⟨0, 0, 0, 0, 1, 0, 1, 0⟩ : StateY).a ≠ 0 ∧
      (⟨0, 0, 0, 0, 1, 0, 1, 0⟩ : StateY).b ≠ 0 ∧
      (inte ⟨981/100, 1, 1, 1, 1, 45, 45⟩ 0 ⟨0, 0, 0, 0, 1, 0, 1, 0⟩ =
          specDerivVector ⟨981/100, 1, 1, 1, 1, 45, 45⟩ ⟨0, 0, 0, 0, 1, 0, 1, 0⟩ ∧
        inte ⟨981/100, 1, 1, 1, 1, 45, 45⟩ 0 ⟨0, 0, 0, 0, 1, 0, 1, 0⟩ =
          inte ⟨981/100, 1, 1, 1, 1, 45, 45⟩ 1 ⟨0, 0, 0, 0, 1, 0, 1, 0⟩) :=
  ⟨one_ne_zero, one_ne_zero,
    inte_matches_spec ⟨981/100, 1, 1, 1, 1, 45, 45⟩ 0 1 ⟨0, 0, 0, 0, 1, 0, 1, 0⟩
      one_ne_zero one_ne_zero⟩

/-- C3: `cartesian` returns four series of the same length as the input, and
at every index `x1 = a*sin(alpha)`, `y1 = -a*cos(alpha)`,
`x2 = x1 + b*sin(beta)`, `y2 = y1 - b*cos(beta)` (pure function: the
embedding has no side effects). -/
theorem cartesian_spec (rows : List GenCoord) (i : ℕ) (h : i < rows.length) :
    (cartesian rows).1.length = rows.length ∧
      (cartesian rows).2.1.length = rows.length ∧
      (cartesian rows).2.2.1.length = rows.length ∧
      (cartesian rows).2.2.2.length = rows.length ∧
      (cartesian rows).1.getD i 0 =
        (rows.get ⟨i, h⟩).a * Real.sin (rows.get ⟨i, h⟩).alpha ∧
      (cartesian rows).2.1.getD i 0 =
        (-(rows.get ⟨i, h⟩).a) * Real.cos (rows.get ⟨i, h⟩).alpha ∧
      (cartesian rows).2.2.1.getD i 0 =
        (cartesian rows).1.getD i 0 +
          (rows.get ⟨i, h⟩).b * Real.sin (rows.get ⟨i, h⟩).beta ∧
      (cartesian rows).2.2.2.getD i 0 =
        (cartesian rows).2.1.getD i 0 -
          (rows.get ⟨i, h⟩).b * Real.cos (rows.get ⟨i, h⟩).beta := by
  have hget : ∀ f : GenCoord → ℝ, (rows.map f).getD i 0 = f (rows.get ⟨i, h⟩) := by
    intro f
    rw [List.getD_eq_getElem _ _ (by simpa using h)]
    simp [List.getElem_map]
  refine ⟨by simp [cartesian], by simp [cartesian], by simp [cartesian],
    by simp [cartesian], ?_, ?_, ?_, ?_⟩
  · simpa [cartesian, x1val] using hget x1val
  · simpa [cartesian, y1val] using hget y1val
  · rw [show (cartesian rows).2.2.1 = rows.map x2val from rfl,
      show (cartesian rows).1 = rows.map x1val from rfl, hget x2val, hget x1val]
    simp [x2val]
  · rw [show (cartesian rows).2.2.2 = rows.map y2val from rfl,
      show (cartesian rows).2.1 = rows.map y1val from rfl, hget y2val, hget y1val]
    simp [y2val]

/-- Witness for C3 on the one-row trajectory `(alpha, beta, a, b) = (0, 0, 1, 1)`
at index `0`. -/
theorem cartesian_spec_witness :
    0 < ([(⟨0, 0, 1, 1⟩ : GenCoord)] : List GenCoord).length ∧
      (cartesian [⟨0, 0, 1, 1⟩]).1.length = 1 := by
  refine ⟨by decide, ?_⟩
  exact (cartesian_spec [⟨0, 0, 1, 1⟩] 0 (by decide)).1

/-- Auxiliary: the squared distance from the origin to bob 1 is `a ^ 2`. -/
theorem x1_sq_add_y1_sq (r : GenCoord) : x1val r ^ 2 + y1val r ^ 2 = r.a ^ 2 := by
  simp only [x1val, y1val]
  linear_combination r.a ^ 2 * Real.sin_sq_add_cos_sq r.alpha

/-- Auxiliary: bob 1's position written in polar form for `Complex.arg`. -/
theorem bob1_polar (r : GenCoord) :
    ((-y1val r : ℝ) : ℂ) + ((x1val r : ℝ) : ℂ) * Complex.I =
      (r.a : ℂ) * (Complex.cos (r.alpha : ℂ) + Complex.sin (r.alpha : ℂ) * Complex.I) := by
  simp only [x1val, y1val, ← Complex.ofReal_cos, ← Complex.ofReal_sin]
  push_cast
  ring

/-- C8: for `a > 0`, `b > 0` and `alpha, beta ∈ (-π, π]`, the spec's recovery
formulas applied to `cartesian`'s per-sample outputs return the original
generalized coordinates exactly (over exact reals). -/
theorem kinematic_roundtrip (r : GenCoord) (ha : 0 < r.a) (hb : 0 < r.b)
    (hα : r.alpha ∈ Set.Ioc (-Real.pi) Real.pi)
    (hβ : r.beta ∈ Set.Ioc (-Real.pi) Real.pi) :
    recover_a r = r.a ∧ recover_alpha r = r.alpha ∧
      recover_b r = r.b ∧ recover_beta r = r.beta := by
  have hx2 : x2val r - x1val r = r.b * Real.sin r.beta := by
    simp [x2val]
  have hy2 : y2val r - y1val r = (-r.b) * Real.cos r.beta := by
    simp [y2val]
  refine ⟨?_, ?_, ?_, ?_⟩
  · rw [recover_a, x1_sq_add_y1_sq, Real.sqrt_sq ha.le]
  · rw [recover_alpha, atan2, bob1_polar]
    exact Complex.arg_mul_cos_add_sin_mul_I ha hα
  · rw [recover_b, hx2, hy2]
    have : (r.b * Real.sin r.beta) ^ 2 + ((-r.b) * Real.cos r.beta) ^ 2 = r.b ^ 2 := by
      linear_combination r.b ^ 2 * Real.sin_sq_add_cos_sq r.beta
    rw [this, Real.sqrt_sq hb.le]
  · rw [recover_beta, atan2, hx2, hy2]
    have hpolar : ((-((-r.b) * Real.cos r.beta) : ℝ) : ℂ) +
        ((r.b * Real.sin r.beta : ℝ) : ℂ) * Complex.I =
          (r.b : ℂ) * (Complex.cos (r.beta : ℂ) + Complex.sin (r.beta : ℂ) * Complex.I) := by
      simp only [← Complex.ofReal_cos, ← Complex.ofReal_sin]
      push_cast
      ring
    rw [hpolar]
    exact Complex.arg_mul_cos_add_sin_mul_I hb hβ

/-- Witness for C8 at `(alpha, beta, a, b) = (0, 0, 1, 1)`. -/
theorem kinematic_roundtrip_witness :
    (0 : ℝ) < 1 ∧ (0 : ℝ) ∈ Set.Ioc (-Real.pi) Real.pi ∧
      (recover_a ⟨0, 0, 1, 1⟩ = (1 : ℝ) ∧ recover_alpha ⟨0, 0, 1, 1⟩ = (0 : ℝ) ∧
        recover_b ⟨0, 0, 1, 1⟩ = (1 : ℝ) ∧ recover_beta ⟨0, 0, 1, 1⟩ = (0 : ℝ)) := by
  have hmem : (0 : ℝ) ∈ Set.Ioc (-Real.pi) Real.pi :=
    ⟨neg_lt_zero.mpr Real.pi_pos, Real.pi_pos.le⟩
  exact ⟨one_pos, hmem, kinematic_roundtrip ⟨0, 0, 1, 1⟩ one_pos one_pos hmem hmem⟩

/-!
The rendering pipeline. Sample values are modelled over `ℚ` (exact versions
of the source's floats) so every definition below is executable.
-/

/-- Hardcoded trail segment count `ns = 50` in `save_frame`. -/
def ns : ℕ := 50

/-- Hardcoded trail stride `s = 4` in `save_frame`. -/
def s : ℕ := 4

/-- Default sub-frame supersampling multiplier `mult = 3` in `save_frame`. -/
def mult : ℕ := 3

/-- The `ValueError` message `scipy.interpolate.interp1d` raises (with the
default `bounds_error=True`) on a query outside the sample grid. -/
def rangeErrMsg : String := "A value in x_new is out of the interpolation range."

/-- Linear interpolation value of `interp1d(np.arange(0, N), xs)` at an
in-range query `t`: interpolate between the samples at `⌊t⌋` and `⌊t⌋ + 1`
(at the right endpoint `t = N - 1` the weight of the missing upper sample
is zero). -/
def interpVal (xs : List ℚ) (t : ℚ) : ℚ :=
  let i : ℕ := (Int.floor t).toNat
  let x0 := xs.getD i 0
  let xnext := xs.getD (i + 1) x0
  x0 + (t - i) * (xnext - x0)

/-- Evaluation of the interpolant `interp1d(np.arange(0, self.x1.shape[0]), xs)`
built in `ElasticPendulum.cartesian` (`self.fx1 .. self.fy2`): with the
default `bounds_error=True`, a query outside `[0, N-1]` raises a
`ValueError`, otherwise the linear interpolation value is returned. -/
def evalInterp (xs : List ℚ) (t : ℚ) : Except String ℚ :=
  if t < 0 ∨ (xs.length : ℚ) - 1 < t then Except.error rangeErrMsg
  else Except.ok (interpVal xs t)

/-- Sequencing of fallible draw calls: stop at the first raised error, as a
Python loop does. -/
def chain (l : List α) (f : α → Except ε Unit) : Except ε Unit :=
  l.foldl (fun acc a => acc >>= fun _ => f a) (Except.ok ())

/-- `np.linspace lo hi n`: `n` evenly spaced points from `lo` to `hi`,
endpoint included. -/
def linspace (lo hi : ℚ) (n : ℕ) : List ℚ :=
  if n = 1 then [lo]
  else (List.range n).map fun (k : ℕ) => lo + (hi - lo) * (k : ℚ) / ((n : ℚ) - 1)

/-- Evaluate the interpolant at every point of one trail segment's `ti`
grid, propagating the first range error (`self.fx1(ti)` etc.). -/
def probeSeg (xs : List ℚ) (ts : List ℚ) : Except String Unit :=
  chain ts fun t => (evalInterp xs t).map fun _ => ()

/-- The sub-frame sampling grid of one trail segment:
`ti = np.linspace(imin, imax, int((imax - imin) * mult))`. -/
def tiGrid (imin imax : ℤ) : List ℚ :=
  linspace (imin : ℚ) (imax : ℚ)
    (Int.toNat (Int.floor (((imax : ℚ) - (imin : ℚ)) * (mult : ℚ))))

/-- Iteration `j` of the trail loop in `ElasticPendulum.save_frame` with
`interpolate=True`: `imin = i - (ns - j) * s`; a negative `imin` is skipped
(`continue`), otherwise `imax = imin + s + 1` and the interpolant is
evaluated on the grid `ti`. -/
def segStep (xs : List ℚ) (i : ℤ) (j : ℕ) : Except String Unit :=
  if i - ((ns : ℤ) - (j : ℤ)) * (s : ℤ) < 0 then Except.ok ()
  else
    probeSeg xs
      (tiGrid (i - ((ns : ℤ) - (j : ℤ)) * (s : ℤ))
        (i - ((ns : ℤ) - (j : ℤ)) * (s : ℤ) + (s : ℤ) + 1))

/-- The interpolated trail-drawing pass of `ElasticPendulum.save_frame` for
frame `i` over one bob's sample series `xs` (`for j in range(ns): ...`),
with the first interpolation range error propagated. -/
def saveFrameTrail (xs : List ℚ) (i : ℤ) : Except String Unit :=
  chain (List.range ns) (segStep xs i)

/-- Whether one interpolant evaluation raises, as a function of the sample
count `n` alone: `evalInterp` decides `t < 0 ∨ t > n - 1` before touching
any sample value. -/
def evalInterpAt (n : ℕ) (t : ℚ) : Except String Unit :=
  if t < 0 ∨ (n : ℚ) - 1 < t then Except.error rangeErrMsg
  else Except.ok ()

/-- `probeSeg`'s raise behavior as a function of the sample count alone. -/
def probeSegN (n : ℕ) (ts : List ℚ) : Except String Unit :=
  chain ts fun t => evalInterpAt n t

/-- `segStep`'s raise behavior as a function of the sample count alone. -/
def segStepN (n : ℕ) (i : ℤ) (j : ℕ) : Except String Unit :=
  if i - ((ns : ℤ) - (j : ℤ)) * (s : ℤ) < 0 then Except.ok ()
  else
    probeSegN n
      (tiGrid (i - ((ns : ℤ) - (j : ℤ)) * (s : ℤ))
        (i - ((ns : ℤ) - (j : ℤ)) * (s : ℤ) + (s : ℤ) + 1))

/-- The trail pass of `save_frame` for frame `i`, as a function of the
trajectory's sample count `n` alone: it succeeds or raises the range error
exactly as `saveFrameTrail` does over any `n`-sample series (theorem
`saveFrameTrail_eq_trailPassN`), because the interpolation queries depend
only on `i` and the domain `[0, n-1]`. -/
def trailPassN (n : ℕ) (i : ℤ) : Except String Unit :=
  chain (List.range ns) (segStepN n i)

/-- One drawn trail segment of `save_frame`, with the closed sample-index
interval `[imin, sampleHi]` its stroke covers. -/
structure TrailSeg where
  j : ℕ
  imin : ℤ
  sampleHi : ℤ
  opacity : ℚ
  deriving DecidableEq

/-- The trail segments `save_frame` draws for frame `i`: iteration `j`
skips when `imin = i - (ns - j) * s` is negative; otherwise with
`interpolate=True` the stroke is sampled on `[imin, imax] = [imin, imin+s+1]`
(`np.linspace(imin, imax, ...)` includes the endpoint `imax`), and with
`interpolate=False` the slice `x[imin:imax]` covers `[imin, imax-1] =
[imin, imin+s]`; either way the opacity is `(j / ns) ** 2`. -/
def trailSegs (i : ℤ) (interpolate : Bool) : List TrailSeg :=
  (List.range ns).filterMap fun (j : ℕ) =>
    if i - ((ns : ℤ) - (j : ℤ)) * (s : ℤ) < 0 then none
    else if interpolate then
      some ⟨j, i - ((ns : ℤ) - (j : ℤ)) * (s : ℤ),
        i - ((ns : ℤ) - (j : ℤ)) * (s : ℤ) + (s : ℤ) + 1,
        ((j : ℚ) / (ns : ℚ)) ^ 2⟩
    else
      some ⟨j, i - ((ns : ℤ) - (j : ℤ)) * (s : ℤ),
        i - ((ns : ℤ) - (j : ℤ)) * (s : ℤ) + (s : ℤ),
        ((j : ℚ) / (ns : ℚ)) ^ 2⟩

/-!
Frame cache and movie encoder.
-/

/-- A file in the frame-cache directory: either a rendered `.png` frame
(identified by its stem) or any other file. -/
inductive CacheFile
  | png (stem : String)
  | other (name : String)
  deriving DecidableEq

/-- Whether `glob.glob(os.path.join(fig_dir, "*png"))` matches the file. -/
def isPng : CacheFile → Bool
  | CacheFile.png _ => true
  | CacheFile.other _ => false

/-- `ElasticPendulum.clear_figs`: remove every file the `*png` glob
matches, keep everything else. -/
def clear_figs (cache : List CacheFile) : List CacheFile :=
  cache.filter fun f => !isPng f

/-- `str(i).zfill(5)`: the frame index zero-padded to (at least) 5 digits. -/
def pad5 (i : ℕ) : String :=
  let d := toString i
  String.mk (List.replicate (5 - d.length) '0') ++ d

/-- The length of `np.arange(0, stop, step)` for a positive step:
`⌈stop / step⌉` points (and none for a non-positive stop). -/
def arangeLen (stop step : ℚ) : ℕ :=
  if 0 < step then (Int.ceil (stop / step)).toNat else 0

/-- The number of evaluation instants `len(self.t_eval)` with
`t_eval = np.arange(0, t_end, 1 / fps)`; this is the number of trajectory
samples and hence of rendered frames. -/
def nFrames (t_end fps : ℚ) : ℕ := arangeLen t_end (1 / fps)

/-!
Instance state and the mutation-as-pipeline call protocol.
-/

/-- The object `scipy.integrate.solve_ivp` returns, as `integrate` uses it:
the `success` flag and the sampled states `solution.y` (one 8-component
state per evaluation instant reached). The solver itself is external. -/
structure IvpSolution where
  success : Bool
  ys : List StateY

/-- `solution.y[[0, 2, 4, 6]].T`: the `(alpha, beta, a, b)` rows extracted
from the solution and handed to `cartesian`. -/
def extractCoords (sol : IvpSolution) : List GenCoord :=
  sol.ys.map fun Y => ⟨Y.alpha, Y.beta, Y.a, Y.b⟩

/-- The attributes of an `ElasticPendulum` instance the pipeline threads
through shared mutable state: `solution`, `x1`, `y1`, `x2`, `y2` are absent
(`none`) until the method that assigns them has run. -/
structure EPState where
  alpha_0 : ℝ
  beta_0 : ℝ
  solution : Option IvpSolution
  x1 : Option (List ℝ)
  y1 : Option (List ℝ)
  x2 : Option (List ℝ)
  y2 : Option (List ℝ)

/-- `ElasticPendulum.__init__`: no trajectory attributes exist yet. -/
def initEP (alpha_0 beta_0 : ℝ) : EPState :=
  ⟨alpha_0, beta_0, none, none, none, none, none⟩

/-- `ElasticPendulum.cartesian` as a method: stores the four Cartesian
series on the instance (and builds the four interpolants over them) and
returns them. -/
noncomputable def cartesianM (st : EPState) (rows : List GenCoord) :
    EPState × (List ℝ × List ℝ × List ℝ × List ℝ) :=
  let res := cartesian rows
  ({ st with
      x1 := some res.1,
      y1 := some res.2.1,
      x2 := some res.2.2.1,
      y2 := some res.2.2.2 }, res)

/-- `ElasticPendulum.integrate`, given the solution object the external
`solve_ivp` call produced: stores it, then unconditionally calls
`self.cartesian(self.solution.y[[0, 2, 4, 6]].T)` and returns its value —
the `success` flag is never inspected. -/
noncomputable def integrateM (st : EPState) (sol : IvpSolution) :
    EPState × (List ℝ × List ℝ × List ℝ × List ℝ) :=
  cartesianM { st with solution := some sol } (extractCoords sol)

/-- A Python exception as the rendering entry points can raise it. -/
inductive PyError
  | attributeError (name : String)
  | valueError (msg : String)
  deriving DecidableEq

/-- `ElasticPendulum.save_frame` viewed at the cache level: its first
statement reads `self.x1` (`self._plot_settings(self.x1[:i])`), so a
missing attribute raises `AttributeError`; otherwise the default
`trace=True, interpolate=True` trail pass runs — raising the interp1d
range `ValueError` when a trail query falls outside `[0, N-1]`, before
`plt.savefig` is reached — and only on success is the frame image
`str(i).zfill(5) + ".png"` written. -/
def save_frameM (st : EPState) (i : ℕ) : Except PyError CacheFile :=
  match st.x1 with
  | none => Except.error (PyError.attributeError "x1")
  | some xs =>
    match trailPassN xs.length (i : ℤ) with
    | Except.error m => Except.error (PyError.valueError m)
    | Except.ok _ => Except.ok (CacheFile.png (pad5 i))

/-- `pool.map(self.save_frame, np.arange(self.x1.shape[0]))`: every task
runs (each successful frame writes its file even when another frame
fails), and the first failure in index order, if any, is re-raised by the
pool. Returns the written frame files and that first error. -/
def dispatchFrames (st : EPState) : List ℕ → List CacheFile × Option PyError
  | [] => ([], none)
  | i :: rest =>
    match save_frameM st i, dispatchFrames st rest with
    | Except.ok f, r => (f :: r.1, r.2)
    | Except.error e, r => (r.1, some e)

/-- `ElasticPendulum.animate_spring` (return/raise behavior): clear the
frame cache, then dispatch `save_frame` over `np.arange(self.x1.shape[0])`
— reading `self.x1`, which raises `AttributeError` when `integrate`
(which assigns it via `cartesian`) has not run — re-raising the first
render failure; on success return the resulting cache contents. -/
def animate_springM (st : EPState) (cache : List CacheFile) :
    Except PyError (List CacheFile) :=
  match st.x1 with
  | none => Except.error (PyError.attributeError "x1")
  | some xs =>
    match dispatchFrames st (List.range xs.length) with
    | (_, some e) => Except.error e
    | (frames, none) => Except.ok (clear_figs cache ++ frames)

/-- The frame-cache directory contents after a run of `animate_spring`
(the filesystem side effect, whether or not the run raised): the stale
files matching `*png` were deleted up front by `clear_figs`, and every
frame whose render succeeded has written its image. -/
def runCache (st : EPState) (cache : List CacheFile) : List CacheFile :=
  clear_figs cache ++
    match st.x1 with
    | none => []
    | some xs => (dispatchFrames st (List.range xs.length)).1

/-!
Movie encoder.
-/

/-- Observable actions of `ElasticPendulum.make_movie`. -/
inductive EncodeAction
  | runEncoder (cmd : String)
  | deleteOutput (path : String)
  | raiseError (msg : String)
  deriving DecidableEq

/-- `ElasticPendulum.make_movie`: build the output name, invoke `ffmpeg`
through `os.system` with a shell format string, and return — the encoder's
exit code is discarded, nothing is raised and no output file is removed,
whatever `exitCode` the external encoder process produced. -/
def make_movie (fps : ℕ) (fig_dir vid_dir stamp : String) (exitCode : ℤ) :
    List EncodeAction :=
  [EncodeAction.runEncoder
    ("ffmpeg -r " ++ toString fps ++ " -f image2 -s 1920x1080 -i " ++
      fig_dir ++ "/%05d.png -vcodec libx264 -crf 25  -pix_fmt yuv420p " ++
      vid_dir ++ "/pend_" ++ stamp ++ ".mp4")]

/-- Whether a run of `make_movie` surfaced any failure. -/
def surfacesFailure (actions : List EncodeAction) : Bool :=
  actions.any fun a =>
    match a with
    | EncodeAction.raiseError _ => true
    | _ => false

/-- Whether a run of `make_movie` removed the output path. -/
def removesOutput (actions : List EncodeAction) : Bool :=
  actions.any fun a =>
    match a with
    | EncodeAction.deleteOutput _ => true
    | _ => false

/-- Whether an `Except` computation completed without raising. -/
def isOkE : Except ε α → Bool
  | Except.ok _ => true
  | Except.error _ => false

/-!
Theorems about the interpolator and the trail renderer.
-/

/-- C7: each trajectory interpolant is defined on `[0, N-1]` (`N` samples):
inside the domain it returns the interpolated value, and any query outside
raises the explicit range `ValueError` instead of extrapolating. -/
theorem interp_domain (xs : List ℚ) (t : ℚ) :
    ((t < 0 ∨ (xs.length : ℚ) - 1 < t) → evalInterp xs t = Except.error rangeErrMsg) ∧
      (0 ≤ t ∧ t ≤ (xs.length : ℚ) - 1 → evalInterp xs t = Except.ok (interpVal xs t)) := by
  constructor
  · intro h
    rw [evalInterp, if_pos h]
  · intro h
    have hn : ¬(t < 0 ∨ (xs.length : ℚ) - 1 < t) := by
      push_neg
      exact ⟨h.1, h.2⟩

    rw [evalInterp, if_neg hn]

/-- Witness for C7 on the three-sample trajectory `[0, 1, 2]`: the query
`t = 5` lies outside `[0, 2]` and raises the range error. -/
theorem interp_domain_witness :
    ((5 : ℚ) < 0 ∨ (([0, 1, 2] : List ℚ).length : ℚ) - 1 < 5) ∧
      evalInterp [0, 1, 2] 5 = Except.error rangeErrMsg :=
  ⟨Or.inr (by norm_num), (interp_domain [0, 1, 2] 5).1 (Or.inr (by norm_num))⟩

/-- A fold of fallible draw calls that starts in an error state stays in
that error state. -/
theorem foldl_bind_error (l : List α) (f : α → Except ε Unit) (e : ε) :
    l.foldl (fun acc a => acc >>= fun _ => f a) (Except.error e) = Except.error e := by
  induction l with
  | nil => rfl
  | cons a l ih => exact ih

/-- A chain of fallible draw calls succeeds iff every call succeeds. -/
theorem chain_isOk (l : List α) (f : α → Except ε Unit) :
    isOkE (chain l f) = l.all fun a => isOkE (f a) := by
  induction l with
  | nil => rfl
  | cons a l ih =>
    rw [chain, List.foldl_cons, List.all_cons]
    show isOkE (List.foldl (fun acc x => acc >>= fun _ => f x) (f a) l) =
      (isOkE (f a) && l.all fun x => isOkE (f x))
    cases hfa : f a with
    | error e =>
      rw [foldl_bind_error]
      simp [isOkE]
    | ok u =>
      cases u
      have hfold : List.foldl (fun acc x => acc >>= fun _ => f x) (Except.ok ()) l =
          chain l f := rfl
      rw [hfold, ih]
      simp [isOkE]

/-- `isOkE` is invariant under `Except.map`. -/
theorem isOkE_map (r : Except ε α) (g : α → β) : isOkE (r.map g) = isOkE r := by
  cases r <;> rfl

/-- A chain of draw calls that can only raise one error `E` either succeeds
or raises `E`. -/
theorem chain_ok_or_error (l : List α) (f : α → Except ε Unit) (E : ε)
    (hf : ∀ a ∈ l, f a = Except.ok () ∨ f a = Except.error E) :
    chain l f = Except.ok () ∨ chain l f = Except.error E := by
  induction l with
  | nil => exact Or.inl rfl
  | cons a l ih =>
    have ha := hf a (List.mem_cons_self a l)
    have hrest : ∀ x ∈ l, f x = Except.ok () ∨ f x = Except.error E :=
      fun x hx => hf x (List.mem_cons_of_mem a hx)
    rw [chain, List.foldl_cons]
    show List.foldl (fun acc x => acc >>= fun _ => f x) (f a) l = Except.ok () ∨
      List.foldl (fun acc x => acc >>= fun _ => f x) (f a) l = Except.error E
    cases ha with
    | inl hok =>
      rw [hok]
      exact ih hrest
    | inr herr =>
      rw [herr, foldl_bind_error]
      exact Or.inr rfl

/-- Each interpolant evaluation either succeeds or raises the range error. -/
theorem evalInterp_cases (xs : List ℚ) (t : ℚ) :
    ((evalInterp xs t).map fun _ => ()) = Except.ok () ∨
      ((evalInterp xs t).map fun _ => ()) = Except.error rangeErrMsg := by
  rw [evalInterp]
  split
  · exact Or.inr rfl
  · exact Or.inl rfl

/-- A trail segment probe either succeeds or raises the range error. -/
theorem probeSeg_cases (xs ts : List ℚ) :
    probeSeg xs ts = Except.ok () ∨ probeSeg xs ts = Except.error rangeErrMsg :=
  chain_ok_or_error ts _ rangeErrMsg fun t _ => evalInterp_cases xs t

/-- A trail-loop iteration either succeeds or raises the range error. -/
theorem segStep_cases (xs : List ℚ) (i : ℤ) (j : ℕ) :
    segStep xs i j = Except.ok () ∨ segStep xs i j = Except.error rangeErrMsg := by
  rw [segStep]
  split
  · exact Or.inl rfl
  · exact probeSeg_cases xs _

/-- The whole trail pass either succeeds or raises the range error. -/
theorem saveFrameTrail_cases (xs : List ℚ) (i : ℤ) :
    saveFrameTrail xs i = Except.ok () ∨
      saveFrameTrail xs i = Except.error rangeErrMsg :=
  chain_ok_or_error _ _ _ fun j _ => segStep_cases xs i j

/-- `np.linspace lo hi n` contains its endpoint `hi` whenever `n ≥ 2`. -/
theorem linspace_endpoint (lo hi : ℚ) (n : ℕ) (hn : 2 ≤ n) : hi ∈ linspace lo hi n := by
  have hne : ((n : ℚ) - 1) ≠ 0 := by
    have h2 : (2 : ℚ) ≤ (n : ℚ) := by exact_mod_cast hn
    linarith
  rw [linspace, if_neg (show ¬n = 1 from by omega)]
  have hk : n - 1 ∈ List.range n := List.mem_range.mpr (by omega)
  have hval : lo + (hi - lo) * ((n - 1 : ℕ) : ℚ) / ((n : ℚ) - 1) = hi := by
    rw [Nat.cast_sub (by omega : 1 ≤ n), Nat.cast_one, mul_div_assoc, div_self hne,
      mul_one]
    ring
  have hmem := List.mem_map_of_mem
    (fun k : ℕ => lo + (hi - lo) * (k : ℚ) / ((n : ℚ) - 1)) hk
  simpa only [hval] using hmem

/-- The `ti` grid of a drawn trail segment is the 15-point grid over
`[imin, imin + 5]`. -/
theorem tiGrid_eq (A : ℤ) :
    tiGrid A (A + (s : ℤ) + 1) = linspace (A : ℚ) ((A : ℚ) + 5) 15 := by
  rw [tiGrid]
  have h1 : ((A + (s : ℤ) + 1 : ℤ) : ℚ) = (A : ℚ) + 5 := by
    simp only [s]
    push_cast
    ring
  rw [h1]
  have h2 : ((A : ℚ) + 5 - (A : ℚ)) = 5 := by ring
  rw [h2]
  norm_num [mult]
  rfl

/-- The final trail-loop iteration (`j = ns - 1 = 49`) of the last frame
queries the interpolant at `i + 1 = N`, outside `[0, N-1]`. -/
theorem segStep_last_fails (xs : List ℚ) (h5 : 5 ≤ xs.length) :
    isOkE (segStep xs ((xs.length : ℤ) - 1) 49) = false := by
  rw [segStep]
  split
  · next hlt =>
    exfalso
    simp only [ns, s] at hlt
    omega
  · next hge =>
    rw [tiGrid_eq]
    rw [probeSeg, chain_isOk, Bool.eq_false_iff]
    intro hall
    have hA : ((xs.length : ℤ) - 1 - ((ns : ℤ) - ((49 : ℕ) : ℤ)) * (s : ℤ) : ℚ) + 5 =
        (xs.length : ℚ) := by
      simp only [ns, s]
      push_cast
      ring
    have hmem := linspace_endpoint
      (((xs.length : ℤ) - 1 - ((ns : ℤ) - ((49 : ℕ) : ℤ)) * (s : ℤ) : ℤ) : ℚ)
      ((((xs.length : ℤ) - 1 - ((ns : ℤ) - ((49 : ℕ) : ℤ)) * (s : ℤ) : ℤ) : ℚ) + 5)
      15 (by norm_num)
    have hq := List.all_eq_true.mp hall _ hmem
    rw [isOkE_map] at hq
    have herr : evalInterp xs
        ((((xs.length : ℤ) - 1 - ((ns : ℤ) - ((49 : ℕ) : ℤ)) * (s : ℤ) : ℤ) : ℚ) + 5) =
          Except.error rangeErrMsg := by
      rw [evalInterp, if_pos]
      right
      rw [show (((xs.length : ℤ) - 1 - ((ns : ℤ) - ((49 : ℕ) : ℤ)) * (s : ℤ) : ℤ) : ℚ) + 5 =
        (xs.length : ℚ) from by push_cast [ns, s]; ring]
      linarith [show (0 : ℚ) ≤ (xs.length : ℚ) from by positivity]
    rw [herr] at hq
    exact absurd hq (by simp [isOkE])

/-- C9: rendering the last frame `i = N - 1` of an `N`-sample trajectory
with trails and interpolation enabled, when at least one trail segment has
a non-negative start (`N - 1 ≥ s`), samples interpolated trail segment `j`
over `[imin, imin + s + 1]` — one index beyond the stored-sample segment —
so the final segment is queried up to `i + 1 = N`, outside the
interpolants' domain `[0, N-1]`, and the frame render raises the range
error instead of producing the frame. -/
theorem last_frame_range_error (xs : List ℚ) (h5 : s + 1 ≤ xs.length) :
    saveFrameTrail xs ((xs.length : ℤ) - 1) = Except.error rangeErrMsg := by
  have h5' : 5 ≤ xs.length := by
    simpa [s] using h5
  have hfail : isOkE (saveFrameTrail xs ((xs.length : ℤ) - 1)) = false := by
    rw [saveFrameTrail, chain_isOk, Bool.eq_false_iff]
    intro hall
    have h49 := List.all_eq_true.mp hall 49 (List.mem_range.mpr (by norm_num [ns]))
    rw [segStep_last_fails xs h5'] at h49
    exact absurd h49 (by simp)
  cases saveFrameTrail_cases xs ((xs.length : ℤ) - 1) with
  | inl hok =>
    rw [hok] at hfail
    exact absurd hfail (by simp [isOkE])
  | inr herr => exact herr

/-- Witness for C9 on a five-sample trajectory (`N = 5 = s + 1`). -/
theorem last_frame_range_error_witness :
    s + 1 ≤ (List.replicate 5 (0 : ℚ)).length ∧
      saveFrameTrail (List.replicate 5 (0 : ℚ))
        (((List.replicate 5 (0 : ℚ)).length : ℤ) - 1) = Except.error rangeErrMsg :=
  ⟨by decide, last_frame_range_error (List.replicate 5 (0 : ℚ)) (by decide)⟩

/-!
Theorems about the drawn trail segments (C4).
-/

/-- C4 counterexample: with interpolation enabled (the default), frame 200
has a drawn trail segment whose sampled range extends past
`imin + s`, contradicting the claimed coverage `[imin, imin + s]`. -/
theorem trail_cover_counterexample :
    ∃ seg ∈ trailSegs 200 true, seg.sampleHi ≠ seg.imin + (s : ℤ) := by
  decide

/-- C4 (amended): for frame `i`, exactly `ns` trail segments `j = 0..ns-1`
are attempted; a segment whose start `imin = i - (ns-j)*s` is negative is
skipped (no drawn segment carries that `j`), and a segment with `imin ≥ 0`
is drawn with opacity `(j/ns)^2` and — with interpolation enabled — is
sampled over `[imin, imin + s + 1]`, one index beyond the stored-sample
range `[imin, imin + s]` of the claim. -/
theorem trail_segments_amended (i : ℤ) (j : ℕ) (hj : j < ns) :
    (i - ((ns : ℤ) - (j : ℤ)) * (s : ℤ) < 0 →
      ∀ seg ∈ trailSegs i true, seg.j ≠ j) ∧
      (0 ≤ i - ((ns : ℤ) - (j : ℤ)) * (s : ℤ) →
        (⟨j, i - ((ns : ℤ) - (j : ℤ)) * (s : ℤ),
          i - ((ns : ℤ) - (j : ℤ)) * (s : ℤ) + (s : ℤ) + 1,
          ((j : ℚ) / (ns : ℚ)) ^ 2⟩ : TrailSeg) ∈ trailSegs i true) := by
  constructor
  · intro hneg seg hseg hjeq
    obtain ⟨a, ha, hfa⟩ := List.mem_filterMap.mp hseg
    have haj : seg.j = a := by
      split at hfa
      · exact absurd hfa (by simp)
      · split at hfa
        · cases hfa
          rfl
        · cases hfa
          rfl
    have haeq : a = j := by rw [← haj, hjeq]
    subst haeq
    rw [if_pos hneg] at hfa
    exact Option.noConfusion hfa
  · intro h0
    apply List.mem_filterMap.mpr
    refine ⟨j, List.mem_range.mpr hj, ?_⟩
    rw [if_neg (not_lt.mpr h0)]
    rfl

/-- Witness for C4's amended theorem at `i = 200`, `j = 0` (the oldest
drawn segment). -/
theorem trail_segments_amended_witness :
    (0 : ℕ) < ns ∧ (0 : ℤ) ≤ 200 - ((ns : ℤ) - ((0 : ℕ) : ℤ)) * (s : ℤ) ∧
      (⟨0, 200 - ((ns : ℤ) - ((0 : ℕ) : ℤ)) * (s : ℤ),
        200 - ((ns : ℤ) - ((0 : ℕ) : ℤ)) * (s : ℤ) + (s : ℤ) + 1,
        (((0 : ℕ) : ℚ) / (ns : ℚ)) ^ 2⟩ : TrailSeg) ∈ trailSegs 200 true :=
  ⟨by decide, by decide, (trail_segments_amended 200 0 (by decide)).2 (by decide)⟩

/-!
Theorems about the frame cache (C5), the call protocol (C2, C10) and the
encoder (C6).
-/

/-- One interpolant evaluation raises or not depending only on the sample
count, never on the sample values. -/
theorem evalInterp_map_eq (xs : List ℚ) (t : ℚ) :
    ((evalInterp xs t).map fun _ => ()) = evalInterpAt xs.length t := by
  by_cases hc : t < 0 ∨ (xs.length : ℚ) - 1 < t
  · rw [evalInterp, evalInterpAt, if_pos hc, if_pos hc]
    rfl
  · rw [evalInterp, evalInterpAt, if_neg hc, if_neg hc]
    rfl

/-- Pointwise-equal draw calls chain identically. -/
theorem chain_congr (l : List α) (f g : α → Except ε Unit)
    (h : ∀ a ∈ l, f a = g a) : chain l f = chain l g := by
  induction l with
  | nil => rfl
  | cons a l ih =>
    rw [chain, chain, List.foldl_cons, List.foldl_cons]
    show List.foldl (fun acc x => acc >>= fun _ => f x) (f a) l =
      List.foldl (fun acc x => acc >>= fun _ => g x) (g a) l
    rw [h a (List.mem_cons_self a l)]
    cases hga : g a with
    | error e => rw [foldl_bind_error, foldl_bind_error]
    | ok u =>
      cases u
      exact ih fun x hx => h x (List.mem_cons_of_mem a hx)

/-- A chain whose draw calls all succeed succeeds. -/
theorem chain_ok (l : List α) (f : α → Except ε Unit)
    (h : ∀ a ∈ l, f a = Except.ok ()) : chain l f = Except.ok () := by
  induction l with
  | nil => rfl
  | cons a l ih =>
    rw [chain, List.foldl_cons]
    show List.foldl (fun acc x => acc >>= fun _ => f x) (f a) l = Except.ok ()
    rw [h a (List.mem_cons_self a l)]
    exact ih fun x hx => h x (List.mem_cons_of_mem a hx)

/-- A segment probe's outcome depends only on the sample count. -/
theorem probeSeg_eq_probeSegN (xs ts : List ℚ) :
    probeSeg xs ts = probeSegN xs.length ts :=
  chain_congr ts _ _ fun t _ => evalInterp_map_eq xs t

/-- A trail-loop iteration's outcome depends only on the sample count. -/
theorem segStep_eq_segStepN (xs : List ℚ) (i : ℤ) (j : ℕ) :
    segStep xs i j = segStepN xs.length i j := by
  by_cases hc : i - ((ns : ℤ) - (j : ℤ)) * (s : ℤ) < 0
  · rw [segStep, if_pos hc, segStepN, if_pos hc]
  · rw [segStep, if_neg hc, segStepN, if_neg hc]
    exact probeSeg_eq_probeSegN xs _

/-- The whole trail pass's outcome depends only on the sample count. -/
theorem saveFrameTrail_eq_trailPassN (xs : List ℚ) (i : ℤ) :
    saveFrameTrail xs i = trailPassN xs.length i :=
  chain_congr _ _ _ fun j _ => segStep_eq_segStepN xs i j

/-- Every point of `np.linspace lo hi m` lies in `[lo, hi]`. -/
theorem linspace_mem_bounds (lo hi : ℚ) (m : ℕ) (hle : lo ≤ hi) (t : ℚ)
    (ht : t ∈ linspace lo hi m) : lo ≤ t ∧ t ≤ hi := by
  rw [linspace] at ht
  split at ht
  · rcases List.mem_singleton.mp ht with rfl
    exact ⟨le_refl _, hle⟩
  · next hm1 =>
    obtain ⟨k, hk, rfl⟩ := List.mem_map.mp ht
    have hkm : k < m := List.mem_range.mp hk
    have hm2 : 2 ≤ m := by omega
    have hden : (0 : ℚ) < (m : ℚ) - 1 := by
      have h2 : (2 : ℚ) ≤ (m : ℚ) := by exact_mod_cast hm2
      linarith
    have hk' : (k : ℚ) ≤ (m : ℚ) - 1 := by
      have : (k : ℚ) + 1 ≤ (m : ℚ) := by exact_mod_cast hkm
      linarith
    have h0 : (0 : ℚ) ≤ hi - lo := sub_nonneg.mpr hle
    constructor
    · have : 0 ≤ (hi - lo) * (k : ℚ) / ((m : ℚ) - 1) :=
        div_nonneg (mul_nonneg h0 (Nat.cast_nonneg k)) hden.le
      linarith
    · have h1 : (hi - lo) * (k : ℚ) / ((m : ℚ) - 1) ≤ hi - lo := by
        rw [div_le_iff₀ hden]
        exact mul_le_mul_of_nonneg_left hk' h0
      linarith

/-- A segment probe whose every query lies in `[0, n-1]` succeeds. -/
theorem probeSegN_ok (n : ℕ) (ts : List ℚ)
    (h : ∀ t ∈ ts, 0 ≤ t ∧ t ≤ (n : ℚ) - 1) : probeSegN n ts = Except.ok () := by
  apply chain_ok
  intro t ht
  rw [evalInterpAt, if_neg]
  push_neg
  exact ⟨(h t ht).1, (h t ht).2⟩

/-- Every trail-loop iteration of a non-final frame (`i ≤ n - 2`) stays
inside the interpolation domain. -/
theorem segStepN_ok (n : ℕ) (i : ℤ) (j : ℕ) (hj : j < ns)
    (hi : i ≤ (n : ℤ) - 2) : segStepN n i j = Except.ok () := by
  rw [segStepN]
  split
  · rfl
  · next hge =>
    have hge' : 0 ≤ i - ((ns : ℤ) - (j : ℤ)) * (s : ℤ) := not_lt.mp hge
    have hA5 : i - ((ns : ℤ) - (j : ℤ)) * (s : ℤ) + 5 ≤ (n : ℤ) - 1 := by
      simp only [ns, s] at hj ⊢
      omega
    rw [tiGrid_eq]
    apply probeSegN_ok
    intro t ht
    have hb := linspace_mem_bounds _ _ 15 (by linarith) t ht
    have hlo : (0 : ℚ) ≤ ((i - ((ns : ℤ) - (j : ℤ)) * (s : ℤ) : ℤ) : ℚ) := by
      exact_mod_cast hge'
    have hhi : ((i - ((ns : ℤ) - (j : ℤ)) * (s : ℤ) : ℤ) : ℚ) + 5 ≤ (n : ℚ) - 1 := by
      exact_mod_cast hA5
    exact ⟨by linarith [hb.1], by linarith [hb.2]⟩

/-- The whole trail pass of a non-final frame succeeds. -/
theorem trailPassN_ok (n : ℕ) (i : ℤ) (hi : i ≤ (n : ℤ) - 2) :
    trailPassN n i = Except.ok () :=
  chain_ok _ _ fun j hj => segStepN_ok n i j (List.mem_range.mp hj) hi

/-- The trail pass of the final frame of an `n ≥ 5` trajectory raises the
range error. -/
theorem trailPassN_last_fails (n : ℕ) (h5 : 5 ≤ n) :
    trailPassN n ((n : ℤ) - 1) = Except.error rangeErrMsg := by
  have hlink := saveFrameTrail_eq_trailPassN (List.replicate n (0 : ℚ)) ((n : ℤ) - 1)
  rw [List.length_replicate] at hlink
  rw [← hlink]
  have hfail : isOkE (saveFrameTrail (List.replicate n (0 : ℚ)) ((n : ℤ) - 1)) = false := by
    rw [saveFrameTrail, chain_isOk, Bool.eq_false_iff]
    intro hall
    have h49 := List.all_eq_true.mp hall 49 (List.mem_range.mpr (by norm_num [ns]))
    have hseg := segStep_last_fails (List.replicate n (0 : ℚ))
      (by simpa using h5)
    rw [List.length_replicate] at hseg
    rw [hseg] at h49
    exact absurd h49 (by simp)
  cases saveFrameTrail_cases (List.replicate n (0 : ℚ)) ((n : ℤ) - 1) with
  | inl hok =>
    rw [hok] at hfail
    exact absurd hfail (by simp [isOkE])
  | inr herr => exact herr

/-- A non-final frame of a post-`integrate` instance renders and writes
its file. -/
theorem save_frameM_ok (st : EPState) (xs : List ℝ) (hst : st.x1 = some xs)
    (i : ℕ) (hi : (i : ℤ) ≤ (xs.length : ℤ) - 2) :
    save_frameM st i = Except.ok (CacheFile.png (pad5 i)) := by
  simp only [save_frameM, hst]
  rw [trailPassN_ok xs.length (i : ℤ) hi]

/-- The final frame of a post-`integrate` instance with `N ≥ 5` samples
raises the range `ValueError` before writing its file. -/
theorem save_frameM_last (st : EPState) (xs : List ℝ) (hst : st.x1 = some xs)
    (h5 : 5 ≤ xs.length) :
    save_frameM st (xs.length - 1) =
      Except.error (PyError.valueError rangeErrMsg) := by
  have hcast : ((xs.length - 1 : ℕ) : ℤ) = (xs.length : ℤ) - 1 := by omega
  simp only [save_frameM, hst]
  rw [hcast, trailPassN_last_fails xs.length h5]

/-- Dispatch over indices that all render successfully writes one file per
index and raises nothing. -/
theorem dispatchFrames_all_ok (st : EPState) (l : List ℕ)
    (h : ∀ i ∈ l, save_frameM st i = Except.ok (CacheFile.png (pad5 i))) :
    dispatchFrames st l = (l.map fun i => CacheFile.png (pad5 i), none) := by
  induction l with
  | nil => rfl
  | cons i rest ih =>
    rw [dispatchFrames, h i (List.mem_cons_self i rest),
      ih fun x hx => h x (List.mem_cons_of_mem i hx)]
    simp

/-- Dispatch distributes over concatenation, the earlier error winning. -/
theorem dispatchFrames_append (st : EPState) (l1 l2 : List ℕ) :
    dispatchFrames st (l1 ++ l2) =
      ((dispatchFrames st l1).1 ++ (dispatchFrames st l2).1,
        match (dispatchFrames st l1).2 with
        | some e => some e
        | none => (dispatchFrames st l2).2) := by
  induction l1 with
  | nil => simp [dispatchFrames]
  | cons i rest ih =>
    rw [List.cons_append]
    cases hsf : save_frameM st i with
    | ok f => simp [dispatchFrames, hsf, ih]
    | error e => simp [dispatchFrames, hsf, ih]

/-- A full render run over `N ≥ 5` samples: frames `0 .. N-2` write their
files, the final frame raises the range `ValueError`. -/
theorem dispatchFrames_run (st : EPState) (xs : List ℝ) (hst : st.x1 = some xs)
    (h5 : 5 ≤ xs.length) :
    dispatchFrames st (List.range xs.length) =
      ((List.range (xs.length - 1)).map fun i => CacheFile.png (pad5 i),
        some (PyError.valueError rangeErrMsg)) := by
  have hsplit : List.range xs.length =
      List.range (xs.length - 1) ++ [xs.length - 1] := by
    rw [← List.range_succ]
    congr 1
    omega
  have hok : ∀ i ∈ List.range (xs.length - 1),
      save_frameM st i = Except.ok (CacheFile.png (pad5 i)) := by
    intro i hi
    have hilt : i < xs.length - 1 := List.mem_range.mp hi
    exact save_frameM_ok st xs hst i (by omega)
  have hlast : dispatchFrames st [xs.length - 1] =
      ([], some (PyError.valueError rangeErrMsg)) := by
    simp [dispatchFrames, save_frameM_last st xs hst h5]
  rw [hsplit, dispatchFrames_append, dispatchFrames_all_ok st _ hok, hlast]
  simp

/-- After `clear_figs`, no file matching the `*png` glob remains. -/
theorem clear_figs_no_png (cache : List CacheFile) :
    (clear_figs cache).filter isPng = [] := by
  induction cache with
  | nil => rfl
  | cons f rest ih =>
    simp only [clear_figs] at ih ⊢
    cases hf : isPng f <;> simp [List.filter_cons, hf, ih]

/-- Every written frame file matches the `*png` glob. -/
theorem filter_png_frames (n : ℕ) :
    ((List.range n).map fun i => CacheFile.png (pad5 i)).filter isPng =
      (List.range n).map fun i => CacheFile.png (pad5 i) := by
  apply List.filter_eq_self.mpr
  intro a ha
  obtain ⟨i, hi, rfl⟩ := List.mem_map.mp ha
  rfl

/-- A full `N ≥ 5` run raises the range `ValueError`, and the cache it
leaves behind is the cleared stale content plus the `N-1` written
frames. -/
theorem animate_springM_run (st : EPState) (xs : List ℝ) (hst : st.x1 = some xs)
    (h5 : 5 ≤ xs.length) (cache : List CacheFile) :
    animate_springM st cache = Except.error (PyError.valueError rangeErrMsg) ∧
      runCache st cache = clear_figs cache ++
        (List.range (xs.length - 1)).map fun i => CacheFile.png (pad5 i) := by
  constructor
  · simp only [animate_springM, hst]
    rw [dispatchFrames_run st xs hst h5]
  · simp only [runCache, hst]
    rw [dispatchFrames_run st xs hst h5]

/-- The arange length over grid step `1 / fps` is `⌈t_end * fps⌉`. -/
theorem nFrames_eq_ceil (t_end fps : ℚ) (hfps : 0 < fps) :
    nFrames t_end fps = Int.toNat (Int.ceil (t_end * fps)) := by
  rw [nFrames, arangeLen, if_pos (by positivity)]
  rw [show t_end / (1 / fps) = t_end * fps from by field_simp]

/-- The frame count at `t_end = 2.3`, `fps = 24` is `⌈55.2⌉ = 56`. -/
theorem nFrames_example_56 : nFrames (23/10) 24 = 56 := by
  rw [nFrames_eq_ceil (23/10) 24 (by norm_num)]
  rw [show ((23/10 : ℚ) * 24) = 276/5 from by norm_num]
  rw [show Int.ceil ((276 : ℚ)/5) = 56 from by rw [Int.ceil_eq_iff]; norm_num]
  rfl

/-- The frame count at `t_end = 2`, `fps = 24` is `48`. -/
theorem nFrames_example_48 : nFrames 2 24 = 48 := by
  rw [nFrames_eq_ceil 2 24 (by norm_num)]
  rw [show ((2 : ℚ) * 24) = 48 from by norm_num]
  rw [show Int.ceil ((48 : ℚ)) = 48 from by norm_num]
  rfl

/-- C5 counterexample: at `t_end = 2 s`, `fps = 24` — where the claimed
`N = floor(t_end * fps) = 48` equals the trajectory length — a run on an
empty cache does not complete: the render of the last frame raises the
interpolation range error, and the cache is left with the 47 frame files
`00000 .. 00046`, not the claimed 48 files `00000 .. 00047`. -/
theorem frame_cache_counterexample :
    Int.floor ((2 : ℚ) * 24) = 48 ∧
      (List.replicate 48 (0 : ℝ)).length = nFrames 2 24 ∧
      animate_springM
          { initEP 0 0 with x1 := some (List.replicate 48 (0 : ℝ)) } [] =
        Except.error (PyError.valueError rangeErrMsg) ∧
      (runCache { initEP 0 0 with x1 := some (List.replicate 48 (0 : ℝ)) } []).filter
          isPng =
        (List.range 47).map fun i => CacheFile.png (pad5 i) := by
  have hrun := animate_springM_run
    { initEP 0 0 with x1 := some (List.replicate 48 (0 : ℝ)) }
    (List.replicate 48 (0 : ℝ)) rfl (by simp) []
  refine ⟨by norm_num, by rw [nFrames_example_48]; simp, hrun.1, ?_⟩
  rw [hrun.2, List.filter_append, clear_figs_no_png, filter_png_frames,
    List.nil_append, List.length_replicate]

/-- C5 (amended): a run clears every stale `*png` frame image and
dispatches `N = len(arange(0, t_end, 1/fps)) = ⌈t_end · fps⌉` frame
renders (equal to the claim's `⌊t_end · fps⌋` only when `t_end · fps` is
an integer); with the default trail interpolation and `N ≥ 5` the render
of the last frame raises the interpolation range error, so the run fails
and the cache is left with exactly the `N - 1` frame images
`00000 .. pad5 (N-2)` — and no other frame image — regardless of the
stale images present before the run. -/
theorem frame_cache_spec (stale : List CacheFile) (xs : List ℝ) (t_end fps : ℚ)
    (hfps : 0 < fps) (hlen : xs.length = nFrames t_end fps) (h5 : 5 ≤ xs.length) :
    animate_springM { initEP 0 0 with x1 := some xs } stale =
        Except.error (PyError.valueError rangeErrMsg) ∧
      (runCache { initEP 0 0 with x1 := some xs } stale).filter isPng =
        (List.range (Int.toNat (Int.ceil (t_end * fps)) - 1)).map
          fun i => CacheFile.png (pad5 i) := by
  have hrun := animate_springM_run { initEP 0 0 with x1 := some xs } xs rfl h5 stale
  refine ⟨hrun.1, ?_⟩
  rw [hrun.2, List.filter_append, clear_figs_no_png, filter_png_frames,
    List.nil_append, hlen, nFrames_eq_ceil t_end fps hfps]

/-- Witness for C5 at `t_end = 2`, `fps = 24` (`N = 48`) over a cache
holding one stale frame image and one unrelated file. -/
theorem frame_cache_spec_witness :
    (0 : ℚ) < 24 ∧ (List.replicate 48 (0 : ℝ)).length = nFrames 2 24 ∧
      5 ≤ (List.replicate 48 (0 : ℝ)).length ∧
      (animate_springM { initEP 0 0 with x1 := some (List.replicate 48 (0 : ℝ)) }
          [CacheFile.png "zzzzz", CacheFile.other "config"] =
          Except.error (PyError.valueError rangeErrMsg) ∧
        (runCache { initEP 0 0 with x1 := some (List.replicate 48 (0 : ℝ)) }
            [CacheFile.png "zzzzz", CacheFile.other "config"]).filter isPng =
          (List.range (Int.toNat (Int.ceil ((2 : ℚ) * 24)) - 1)).map
            fun i => CacheFile.png (pad5 i)) :=
  ⟨by norm_num, by rw [nFrames_example_48]; simp, by simp,
    frame_cache_spec [CacheFile.png "zzzzz", CacheFile.other "config"]
      (List.replicate 48 (0 : ℝ)) 2 24 (by norm_num)
      (by rw [nFrames_example_48]; simp) (by simp)⟩

/-- C2 counterexample: a failed solver result (`success = False`) with a
one-sample partial trace is nevertheless passed to the Cartesian
transform — after `integrate`, the downstream series `x1` exists. -/
theorem integrate_counterexample :
    (⟨false, [⟨0, 0, 0, 0, 1, 0, 1, 0⟩]⟩ : IvpSolution).success = false ∧
      ((integrateM (initEP 0 0) ⟨false, [⟨0, 0, 0, 0, 1, 0, 1, 0⟩]⟩).1).x1 ≠ none := by
  exact ⟨rfl, by simp [integrateM, cartesianM]⟩

/-- C2 (amended): `integrate` stores the solver result — whose `success`
status is thereby exposed to callers — but it never inspects that status:
even when `success = false` it unconditionally applies the Cartesian
transform (and interpolant construction) to the partial trace and returns
the result, so downstream stages are fed regardless of solver failure. -/
theorem integrate_amended (st : EPState) (sol : IvpSolution)
    (hfail : sol.success = false) :
    ((integrateM st sol).1).solution = some sol ∧
      ((integrateM st sol).1).x1 = some (cartesian (extractCoords sol)).1 ∧
      (integrateM st sol).2 = cartesian (extractCoords sol) :=
  ⟨rfl, rfl, rfl⟩

/-- Witness for C2's amended theorem on a concrete failed solution. -/
theorem integrate_amended_witness :
    (⟨false, []⟩ : IvpSolution).success = false ∧
      (((integrateM (initEP 0 0) ⟨false, []⟩).1).solution = some ⟨false, []⟩ ∧
        ((integrateM (initEP 0 0) ⟨false, []⟩).1).x1 =
          some (cartesian (extractCoords ⟨false, []⟩)).1 ∧
        (integrateM (initEP 0 0) ⟨false, []⟩).2 =
          cartesian (extractCoords ⟨false, []⟩)) :=
  ⟨rfl, integrate_amended (initEP 0 0) ⟨false, []⟩ rfl⟩

/-- C10: invoking the render dispatch (`animate_spring`) or a single frame
render (`save_frame`) on a freshly constructed instance — before
`integrate` has created the Cartesian series and interpolants — fails with
`AttributeError` on `x1`, not with rendering output or a domain-specific
error. -/
theorem animate_before_integrate (a0 b0 : ℝ) (cache : List CacheFile) (i : ℕ) :
    animate_springM (initEP a0 b0) cache =
        Except.error (PyError.attributeError "x1") ∧
      save_frameM (initEP a0 b0) i = Except.error (PyError.attributeError "x1") :=
  ⟨rfl, rfl⟩

/-- C6 counterexample: with the encoder exiting `1` (e.g. `ffmpeg` absent
or failing), `make_movie` behaves exactly as on success: it surfaces no
failure and removes no output file. -/
theorem make_movie_counterexample :
    (1 : ℤ) ≠ 0 ∧
      surfacesFailure (make_movie 24 "_figs" "_videos" "ts" 1) = false ∧
      removesOutput (make_movie 24 "_figs" "_videos" "ts" 1) = false ∧
      make_movie 24 "_figs" "_videos" "ts" 1 =
        make_movie 24 "_figs" "_videos" "ts" 0 :=
  ⟨by decide, rfl, rfl, rfl⟩

/-- C6 (amended): `make_movie` invokes the encoder through `os.system` and
discards its exit status: its observable behavior is the same for every
exit code, no failure is surfaced, and no (possibly partial) output video
is removed on a failing path. -/
theorem make_movie_amended (fps : ℕ) (fig_dir vid_dir stamp : String)
    (e1 e2 : ℤ) :
    make_movie fps fig_dir vid_dir stamp e1 =
        make_movie fps fig_dir vid_dir stamp e2 ∧
      surfacesFailure (make_movie fps fig_dir vid_dir stamp e1) = false ∧
      removesOutput (make_movie fps fig_dir vid_dir stamp e1) = false :=
  ⟨rfl, rfl, rfl⟩

end ElasticPendulum

